import Mathlib

/-!
Verification of the scam-detection honeypot core: detection engine,
conversation engine and intelligence extraction, embedded shallowly from
the Python sources (src/detector/scam_detector.py, src/agent/persona_manager.py,
src/agent/conversation_agent.py, src/extractor/intelligence_extractor.py).

Python floats are modelled as rationals, Python `re.findall` is modelled by a
small backtracking matcher over token lists that mirror the literal regexes of
the source, Python's global random generator is modelled by an explicit record
of draws, and Python dict aliasing (for the persona catalog) is modelled by
write-through state updates.
-/

/-! ## Basic string helpers -/

/-- Python word character for `\w` / `\b` (ASCII scope): `[A-Za-z0-9_]`. -/
def isWordChar (c : Char) : Bool := c.isAlphanum || c == '_'

/-- Python whitespace for `\s` (ASCII scope). -/
def pyWs (c : Char) : Bool :=
  c == ' ' || c == '\t' || c == '\n' || c == '\r' || c == '\x0b' || c == '\x0c'

/-- Character-wise lower casing, modelling Python `str.lower` on ASCII text. -/
def pyLower (s : String) : String := String.mk (s.toList.map Char.toLower)

/-- Character-wise upper casing, modelling Python `str.upper` on ASCII text. -/
def pyUpper (s : String) : String := String.mk (s.toList.map Char.toUpper)

/-- Is `a` a (contiguous) leading segment of `b`? -/
def litPrefix : List Char → List Char → Bool
  | [], _ => true
  | _ :: _, [] => false
  | a :: as, b :: bs => a == b && litPrefix as bs

/-- Does `a` occur contiguously inside `b`? -/
def litInfix (a : List Char) : List Char → Bool
  | [] => a.isEmpty
  | c :: bs => litPrefix a (c :: bs) || litInfix a bs

/-- Python's substring test `needle in haystack`. -/
def containsSub (needle hay : String) : Bool := litInfix needle.toList hay.toList

theorem litPrefix_subset {a b : List Char} (h : litPrefix a b = true) :
    ∀ c ∈ a, c ∈ b := by
  induction a generalizing b with
  | nil => intro c hc; cases hc
  | cons x xs ih =>
    cases b with
    | nil => simp [litPrefix] at h
    | cons y ys =>
      simp only [litPrefix, Bool.and_eq_true, beq_iff_eq] at h
      intro c hc
      rcases List.mem_cons.mp hc with rfl | hc
      · exact h.1 ▸ List.mem_cons_self _ _
      · exact List.mem_cons_of_mem _ (ih h.2 c hc)

theorem litInfix_subset {a b : List Char} (h : litInfix a b = true) :
    ∀ c ∈ a, c ∈ b := by
  induction b with
  | nil =>
    simp only [litInfix, List.isEmpty_iff] at h
    subst h; intro c hc; cases hc
  | cons y ys ih =>
    simp only [litInfix, Bool.or_eq_true] at h
    rcases h with h | h
    · exact litPrefix_subset h
    · intro c hc; exact List.mem_cons_of_mem _ (ih h c hc)

/-- `Char.ofNat` of a small codepoint decodes back to the same `Nat`. -/
theorem char_toNat_ofNat_small {m : Nat} (h : m < 55296) :
    (Char.ofNat m).toNat = m := by
  rw [Char.ofNat, dif_pos (Or.inl h)]
  rfl

/-- Lower casing a whitespace character leaves it unchanged. -/
theorem toLower_of_isWhitespace {c : Char} (h : c.isWhitespace = true) :
    c.toLower = c := by
  simp only [Char.isWhitespace, Bool.or_eq_true, decide_eq_true_eq] at h
  rcases h with ((rfl | rfl) | rfl) | rfl <;> decide

/-- Whitespace characters are low codepoints. -/
theorem toNat_lt_of_isWhitespace (d : Char) (h : d.isWhitespace = true) :
    d.toNat < 33 := by
  simp only [Char.isWhitespace, Bool.or_eq_true, decide_eq_true_eq] at h
  rcases h with ((rfl | rfl) | rfl) | rfl <;> decide

/-- If the lower-cased character is whitespace, so was the original. -/
theorem isWhitespace_of_toLower {c : Char} (h : (c.toLower).isWhitespace = true) :
    c.isWhitespace = true := by
  by_cases hc : c.toNat ≥ 65 ∧ c.toNat ≤ 90
  · exfalso
    rw [show c.toLower = Char.ofNat (c.toNat + 32) by
      simp [Char.toLower, hc]] at h
    have ht : (Char.ofNat (c.toNat + 32)).toNat = c.toNat + 32 :=
      char_toNat_ofNat_small (by omega)
    have hl := toNat_lt_of_isWhitespace _ h
    rw [ht] at hl
    omega
  · rw [show c.toLower = c by simp [Char.toLower, hc]] at h
    exact h

/-! ## A small matcher for the regular expressions of the source

Each Python regex used by the repository is a sequence of: word boundaries
`\b`, single character classes, greedy bounded repetitions of a character
class, and an optional alternation over literal strings.  The matcher below
implements exactly the leftmost, greedy, backtracking semantics of `re` for
such patterns; `findAll` mirrors `re.findall` (non-overlapping, left to
right). -/

inductive RTok where
  | wb : RTok
  | one : (Char → Bool) → RTok
  | rep : (Char → Bool) → Nat → Option Nat → RTok
  | alts : List (List Char) → RTok

/-- Length of the maximal leading run of characters satisfying `p`. -/
def countRun (p : Char → Bool) : List Char → Nat
  | [] => 0
  | c :: s => if p c then countRun p s + 1 else 0

/-- Greedy repetition: try consuming `k` characters, then `k-1`, ... down to
`lo`, handing the rest of the input to `next` (with the updated
previous-character-is-word flag). -/
def tryCounts (next : Bool → List Char → Option Nat) (lo : Nat) (prevW : Bool)
    (s : List Char) : Nat → Option Nat
  | 0 =>
    if lo = 0 then next prevW s else none
  | k + 1 =>
    if k + 1 < lo then none
    else
      match next (isWordChar ((s.take (k + 1)).getLastD 'a')) (s.drop (k + 1)) with
      | some n => some (k + 1 + n)
      | none => tryCounts next lo prevW s k

/-- Alternation over literal strings, tried in order. -/
def tryAlts (next : Bool → List Char → Option Nat) (prevW : Bool)
    (s : List Char) : List (List Char) → Option Nat
  | [] => none
  | a :: rest =>
    if litPrefix a s then
      let pw := match a.getLast? with
        | some c => isWordChar c
        | none => prevW
      match next pw (s.drop a.length) with
      | some n => some (a.length + n)
      | none => tryAlts next prevW s rest
    else tryAlts next prevW s rest

/-- Match a token list at the start of `s` (with `prevW` recording whether the
character just before `s` is a word character), returning the number of
characters consumed by the leftmost greedy match, if any. -/
def matchToks : List RTok → Bool → List Char → Option Nat
  | [], _, _ => some 0
  | .wb :: ts, prevW, s =>
    let nw := match s with
      | [] => false
      | c :: _ => isWordChar c
    if prevW == nw then none else matchToks ts prevW s
  | .one _ :: _, _, [] => none
  | .one p :: ts, _, c :: s =>
    if p c then (matchToks ts (isWordChar c) s).map (· + 1) else none
  | .rep p lo hi :: ts, prevW, s =>
    let run := countRun p s
    let cap := match hi with
      | none => run
      | some h => min run h
    tryCounts (fun pw s2 => matchToks ts pw s2) lo prevW s cap
  | .alts as :: ts, prevW, s =>
    tryAlts (fun pw s2 => matchToks ts pw s2) prevW s as

/-- Scan of `re.findall`: at each position try a match; on success record it
and resume after it, otherwise advance one character.  The `fuel` argument
only makes the recursion structural; every step consumes at least one
character, so starting it at the length of the input is always enough. -/
def findAllAux (toks : List RTok) : Nat → Bool → List Char → List (List Char)
  | 0, _, _ => []
  | _, _, [] => []
  | fuel + 1, prevW, c :: rest =>
    match matchToks toks prevW (c :: rest) with
    | some (n + 1) =>
      (c :: rest).take (n + 1) ::
        findAllAux toks fuel (isWordChar (((c :: rest).take (n + 1)).getLastD 'a'))
          ((c :: rest).drop (n + 1))
    | some 0 => [] :: findAllAux toks fuel (isWordChar c) rest
    | none => findAllAux toks fuel (isWordChar c) rest

/-- Model of `re.findall(pattern, text)` for the token-list patterns. -/
def findAll (toks : List RTok) (s : String) : List String :=
  (findAllAux toks s.toList.length false s.toList).map (fun l => String.mk l)

/-! ## Regex patterns of the repository, as token lists -/

/-- Class `[A-Za-z]`. -/
def alphaC (c : Char) : Bool := c.isAlpha

/-- Class `[0-9]`. -/
def digitC (c : Char) : Bool := c.isDigit

/-- Class `[A-Za-z0-9]`. -/
def alnumC (c : Char) : Bool := c.isAlphanum

/-- Class `[\w\.-]`. -/
def wDotDashC (c : Char) : Bool := isWordChar c || c == '.' || c == '-'

/-- Class `[A-Za-z0-9._%+-]` (email local part). -/
def emailLocalC (c : Char) : Bool :=
  c.isAlphanum || c == '.' || c == '_' || c == '%' || c == '+' || c == '-'

/-- Class `[A-Za-z0-9.-]` (email domain part). -/
def emailDomC (c : Char) : Bool := c.isAlphanum || c == '.' || c == '-'

/-- Class `[A-Z|a-z]` (the source's TLD class, which also admits a bar). -/
def tldC (c : Char) : Bool := c.isAlpha || c == '|'

/-- Class `[^\s]`. -/
def nonWsC (c : Char) : Bool := !pyWs c

/-- Case-insensitive literal character. -/
def lowEq (a : Char) (c : Char) : Bool := c.toLower == a

/-- Class `[a-km-zA-HJ-NP-Z1-9]` (base58). -/
def base58C (c : Char) : Bool :=
  (c.isLower && !(c == 'l')) || (c.isUpper && !(c == 'I') && !(c == 'O')) ||
    (('1' ≤ c) && (c ≤ '9'))

/-- Class `[a-fA-F0-9]`. -/
def hexC (c : Char) : Bool :=
  c.isDigit || (('a' ≤ c) && (c ≤ 'f')) || (('A' ≤ c) && (c ≤ 'F'))

/-- Pattern `\b\d{9,18}\b` (bank account numbers). -/
def bankToks : List RTok := [.wb, .rep digitC 9 (some 18), .wb]

/-- Pattern `\b[A-Z]{4}0[A-Z0-9]{6}\b` with `re.IGNORECASE` (IFSC codes). -/
def ifscToks : List RTok :=
  [.wb, .rep alphaC 4 (some 4), .one (fun c => c == '0'), .rep alnumC 6 (some 6), .wb]

/-- Pattern `\b[\w\.-]+@[\w\.-]+\b` (UPI ids). -/
def upiToks : List RTok :=
  [.wb, .rep wDotDashC 1 none, .one (fun c => c == '@'), .rep wDotDashC 1 none, .wb]

/-- Pattern `https?://[^\s]+` with `re.IGNORECASE` (URLs). -/
def urlToks : List RTok :=
  [.one (lowEq 'h'), .one (lowEq 't'), .one (lowEq 't'), .one (lowEq 'p'),
   .rep (lowEq 's') 0 (some 1), .one (fun c => c == ':'),
   .one (fun c => c == '/'), .one (fun c => c == '/'), .rep nonWsC 1 none]

/-- Pattern `\b[A-Za-z0-9._%+-]+@[A-Za-z0-9.-]+\.[A-Z|a-z]{2,}\b` (emails). -/
def emailToks : List RTok :=
  [.wb, .rep emailLocalC 1 none, .one (fun c => c == '@'),
   .rep emailDomC 1 none, .one (fun c => c == '.'), .rep tldC 2 none, .wb]

/-- Pattern `\b[13][a-km-zA-HJ-NP-Z1-9]{25,34}\b` (bitcoin addresses). -/
def btcToks : List RTok :=
  [.wb, .one (fun c => c == '1' || c == '3'), .rep base58C 25 (some 34), .wb]

/-- Pattern `\b0x[a-fA-F0-9]{40}\b` (ethereum addresses). -/
def ethToks : List RTok :=
  [.wb, .one (fun c => c == '0'), .one (fun c => c == 'x'), .rep hexC 40 (some 40), .wb]

/-- Pattern `(\+91|0)?[6-9]\d{9}` (Indian phone numbers). -/
def phoneToks : List RTok :=
  [.alts [['+', '9', '1'], ['0'], []],
   .one (fun c => ('6' ≤ c) && (c ≤ '9')), .rep digitC 9 (some 9)]

/-- Pattern `\d+\.\d+\.\d+\.\d+` (IP-address hosts, used via `re.search`). -/
def ipToks : List RTok :=
  [.rep digitC 1 none, .one (fun c => c == '.'), .rep digitC 1 none,
   .one (fun c => c == '.'), .rep digitC 1 none, .one (fun c => c == '.'),
   .rep digitC 1 none]

/-! ## Exact rationals standing in for Python floats

The detector's score arithmetic uses Python floats.  All values that actually
arise (integer counts, the constants 1.5 and 1.2, and their products with the
catalog's confidence weights) are small exact rationals, so floats are
modelled by fractions `num / den` (with positive denominators for every value
the code constructs); the operations below are kept definitionally
transparent so that concrete runs reduce inside the kernel. -/

structure PyFloat where
  num : Int
  den : Int
deriving DecidableEq

/-- The rational `n / 1`. -/
def PyFloat.ofNat (n : Nat) : PyFloat := ⟨n, 1⟩

instance : OfNat PyFloat n := ⟨PyFloat.ofNat n⟩

instance : NatCast PyFloat := ⟨PyFloat.ofNat⟩

instance : Add PyFloat :=
  ⟨fun a b => ⟨a.num * b.den + b.num * a.den, a.den * b.den⟩⟩

instance : Sub PyFloat :=
  ⟨fun a b => ⟨a.num * b.den - b.num * a.den, a.den * b.den⟩⟩

instance : Mul PyFloat := ⟨fun a b => ⟨a.num * b.num, a.den * b.den⟩⟩

/-- Comparison by cross multiplication (denominators are positive for every
value the embedded code builds). -/
def PyFloat.flt (a b : PyFloat) : Bool := decide (a.num * b.den < b.num * a.den)

instance : LT PyFloat := ⟨fun a b => PyFloat.flt a b = true⟩

instance (a b : PyFloat) : Decidable (a < b) :=
  inferInstanceAs (Decidable (PyFloat.flt a b = true))

/-- Larger of two values under float comparison (`b` on ties, which for the
comparison-based fold below is indistinguishable from `a`). -/
def PyFloat.fmax (a b : PyFloat) : PyFloat := if a < b then b else a

/-- Python `int()`: truncation toward zero (`Int.div` is T-division). -/
def ratTrunc (q : PyFloat) : Int := Int.tdiv q.num q.den

/-- Rounding to the nearest integer (half away from zero); this is the
`round` that the specification's confidence formula names. -/
def ratRound (q : PyFloat) : Int :=
  if q < 0 then -(Int.fdiv (-q.num * 2 + q.den) (2 * q.den))
  else Int.fdiv (q.num * 2 + q.den) (2 * q.den)

/-! ## DetectionEngine (src/detector/scam_detector.py) -/

/-- One scam category of the pattern catalog (`scam_types` entries); a missing
`urgency_indicators` / `authority_claims` key is modelled by the empty list. -/
structure ScamTypePatterns where
  keywords : List String
  urgency_indicators : List String
  authority_claims : List String
  confidence_weight : PyFloat
deriving DecidableEq

/-- The pattern catalog loaded at startup (`scam_patterns.json`). -/
structure Catalog where
  scam_types : List (String × ScamTypePatterns)
  red_flags : List String
  legitimate_indicators : List String
deriving DecidableEq

/-- Every phrase appearing anywhere in the catalog. -/
def catalogPhrases (cat : Catalog) : List String :=
  ((cat.scam_types.map (fun t =>
      t.2.keywords ++ t.2.urgency_indicators ++ t.2.authority_claims)).flatten)
    ++ cat.red_flags ++ cat.legitimate_indicators

/-- Raw score of one scam category: +1 per keyword, +1.5 per urgency
indicator, +1.2 per authority claim found in the lower-cased message. -/
def typeScore (ml : String) (p : ScamTypePatterns) : PyFloat :=
  (p.keywords.countP (fun k => containsSub (pyLower k) ml) : PyFloat)
    + PyFloat.mk 3 2 * (p.urgency_indicators.countP (fun k => containsSub (pyLower k) ml) : PyFloat)
    + PyFloat.mk 6 5 * (p.authority_claims.countP (fun k => containsSub (pyLower k) ml) : PyFloat)

/-- Match labels recorded for one scam category. -/
def typeMatches (ml : String) (p : ScamTypePatterns) : List String :=
  p.keywords.filter (fun k => containsSub (pyLower k) ml)
    ++ (p.urgency_indicators.filter (fun k => containsSub (pyLower k) ml)).map
        (fun k => "urgency: " ++ k)
    ++ (p.authority_claims.filter (fun k => containsSub (pyLower k) ml)).map
        (fun k => "authority: " ++ k)

/-- Categories with positive raw score, with their weighted score and match
labels, in catalog order. -/
def scoredTypes (cat : Catalog) (ml : String) : List (String × PyFloat × List String) :=
  cat.scam_types.filterMap (fun nt =>
    let sc := typeScore ml nt.2
    if 0 < sc then some (nt.1, sc * nt.2.confidence_weight, typeMatches ml nt.2)
    else none)

/-- Python `max(..., key=...)`: the first element attaining the maximal
weighted score (later ties do not replace the current best). -/
def firstMax (l : List (String × PyFloat × List String)) :
    Option (String × PyFloat × List String) :=
  match l with
  | [] => none
  | x :: xs => some (xs.foldl (fun b y => if b.2.1 < y.2.1 then y else b) x)

/-- Red flags found in the lower-cased message. -/
def redFlagsFound (cat : Catalog) (ml : String) : List String :=
  cat.red_flags.filter (fun f => containsSub (pyLower f) ml)

/-- Number of legitimate indicators found in the lower-cased message. -/
def legitCount (cat : Catalog) (ml : String) : Nat :=
  cat.legitimate_indicators.countP (fun f => containsSub (pyLower f) ml)

/-- The `confidence` variable of `detect` right after the base formula
`min(100, int(raw_score*15 + red_flags*10 - legitimate*20))`, before the
heuristic boosts and the final clamp; 0 when no category scored. -/
def baseConfidence (cat : Catalog) (msg : String) : Int :=
  let ml := pyLower msg
  match firstMax (scoredTypes cat ml) with
  | none => 0
  | some t =>
    min 100 (ratTrunc (t.2.1 * 15 + ((redFlagsFound cat ml).length : PyFloat) * 10
      - ((legitCount cat ml : PyFloat)) * 20))

/-- Suspicion score of a single URL in `_check_url_patterns`. -/
def urlSuspicion (url : String) : Nat :=
  (if [".tk", ".ml", ".ga", ".cf", ".gq"].any
      (fun t => containsSub t (pyLower url)) then 2 else 0)
  + (if ["bit.ly", "tinyurl", "goo.gl"].any
      (fun t => containsSub t (pyLower url)) then 1 else 0)
  + (if (findAll ipToks url).isEmpty then 0 else 2)

/-- `_check_url_patterns`: 0 when no URL, otherwise capped sum. -/
def urlScore (msg : String) : Nat :=
  let urls := findAll urlToks msg
  if urls.isEmpty then 0 else min ((urls.map urlSuspicion).sum) 3

/-- `_check_phone_patterns`: number of phone matches, capped at 2. -/
def phoneScore (msg : String) : Nat := min (findAll phoneToks msg).length 2

/-- `_check_urgency_language`: urgency vocabulary hits, capped at 3. -/
def urgencyScore (msg : String) : Nat :=
  min (["urgent", "immediately", "now", "hurry", "quick", "expire",
        "last chance", "limited time", "act fast"].countP
    (fun w => containsSub w (pyLower msg))) 3

/-- The additive heuristic boosts of `detect`. -/
def heuristicBoost (msg : String) : Int :=
  (urlScore msg : Int) * 10 + (phoneScore msg : Int) * 8 + (urgencyScore msg : Int) * 5

/-- Result dictionary of `ScamDetector.detect`. -/
structure DetectionResult where
  is_scam : Bool
  confidence : Int
  scam_type : Option String
  matched_patterns : List String
  red_flags : List String
deriving DecidableEq

/-- `ScamDetector.detect`, embedded from the source. -/
def detect (cat : Catalog) (msg : String) : DetectionResult :=
  let ml := pyLower msg
  let rfs := redFlagsFound cat ml
  match firstMax (scoredTypes cat ml) with
  | none =>
    { is_scam := false, confidence := 0, scam_type := none,
      matched_patterns := [], red_flags := rfs }
  | some t =>
    let conf := max 0 (min 100 (baseConfidence cat msg + heuristicBoost msg))
    { is_scam := decide (50 ≤ conf), confidence := conf,
      scam_type := if 50 ≤ conf then some t.1 else none,
      matched_patterns := t.2.2, red_flags := rfs }

/-! ## ExtractionEngine (src/extractor/intelligence_extractor.py) -/

/-- A transcript message dictionary (`role`, `content`, `timestamp`). -/
structure Message where
  role : String
  content : String
  timestamp : Nat
deriving DecidableEq

/-- One entry of the `bank_accounts` result list. -/
structure BankAccount where
  account_number : Option String
  ifsc_code : Option String
  bank_name : Option String
  extracted_at : String
deriving DecidableEq

/-- The `bank_codes` IFSC-prefix lookup table. -/
def bank_codes : List (String × String) :=
  [("SBIN", "State Bank of India"), ("HDFC", "HDFC Bank"), ("ICIC", "ICICI Bank"),
   ("AXIS", "Axis Bank"), ("PUNB", "Punjab National Bank"), ("BARB", "Bank of Baroda"),
   ("CNRB", "Canara Bank"), ("UBIN", "Union Bank of India"), ("IDIB", "Indian Bank"),
   ("IOBA", "Indian Overseas Bank")]

/-- `self.bank_codes.get(ifsc[:4], 'Unknown Bank')` on an upper-cased IFSC. -/
def bankNameOf (ifscUpper : String) : String :=
  ((bank_codes.lookup (String.mk (ifscUpper.toList.take 4))).getD "Unknown Bank")

/-- The account entry built in the pairing loop: IFSC and bank name stay
`None` when no IFSC is available at this index (`i` is the 1-based position
used for the `extracted_at` label). -/
def bankEntry (a : String) (f? : Option String) (i : Nat) : BankAccount :=
  match f? with
  | some f =>
    { account_number := some a, ifsc_code := some (pyUpper f),
      bank_name := some (bankNameOf (pyUpper f)),
      extracted_at := "message_" ++ toString i }
  | none =>
    { account_number := some a, ifsc_code := none, bank_name := none,
      extracted_at := "message_" ++ toString i }

/-- A standalone entry for an IFSC code left after accounts are exhausted. -/
def standaloneEntry (f : String) : BankAccount :=
  { account_number := none, ifsc_code := some (pyUpper f),
    bank_name := some (bankNameOf (pyUpper f)), extracted_at := "standalone" }

/-- The pairing loop of `extract_bank_accounts`: the i-th account number is
paired with the i-th IFSC code when it exists. -/
def pairAccounts : List String → List String → Nat → List BankAccount
  | [], _, _ => []
  | a :: as, [], n => bankEntry a none n :: pairAccounts as [] (n + 1)
  | a :: as, f :: fs, n => bankEntry a (some f) n :: pairAccounts as fs (n + 1)

/-- `IntelligenceExtractor.extract_bank_accounts`; the `conversation`
parameter is accepted and ignored, exactly as in the source. -/
def extract_bank_accounts (text : String) (_conversation : List Message) :
    List BankAccount :=
  let account_numbers := findAll bankToks text
  let ifsc_codes := findAll ifscToks text
  pairAccounts account_numbers ifsc_codes 1
    ++ (ifsc_codes.drop account_numbers.length).map standaloneEntry

/-- The excluded common email-provider domains of `extract_upi_ids`. -/
def email_domains : List String :=
  ["gmail.com", "yahoo.com", "hotmail.com", "outlook.com", "protonmail.com",
   "icloud.com", "aol.com", "mail.com", "zoho.com", "yandex.com", "rediffmail.com"]

/-- The payment-provider vocabulary of `extract_upi_ids`. -/
def upi_handles : List String :=
  ["paytm", "phonepe", "googlepay", "gpay", "amazonpay", "bhim", "ybl", "oksbi",
   "okaxis", "okicici", "okhdfcbank", "ibl", "axl", "pnb", "boi", "cnrb", "upi",
   "fbl", "sbi", "icici", "hdfc", "axis", "kotak", "federal", "indus"]

/-- `IntelligenceExtractor.extract_upi_ids` (Python's `list(set(...))` is
modelled by deduplication; only membership is meaningful). -/
def extract_upi_ids (text : String) : List String :=
  ((findAll upiToks text).filter (fun u =>
    !(email_domains.any (fun d => containsSub d (pyLower u))) &&
      (upi_handles.any (fun h => containsSub h (pyLower u))))).dedup

/-- `IntelligenceExtractor.extract_phone_numbers`.  The third-party
`phonenumbers` matcher is abstracted as a parameter returning `none` when it
raises, in which case the source falls back to a regex whose single group
captures only the `+91`/`0` prefix of each match. -/
def extract_phone_numbers (lib : String → Option (List String)) (text : String) :
    List String :=
  match lib text with
  | some phones => phones.dedup
  | none =>
    (((findAll phoneToks text).map (fun m =>
      if litPrefix ['+', '9', '1'] m.toList then "+91"
      else if litPrefix ['0'] m.toList then "0" else ""))).dedup

/-- `IntelligenceExtractor.extract_urls`. -/
def extract_urls (text : String) : List String := (findAll urlToks text).dedup

/-- `IntelligenceExtractor.extract_emails`. -/
def extract_emails (text : String) : List String :=
  ((findAll emailToks text).filter (fun e =>
    !(["paytm", "phonepe", "ybl"].any (fun h => containsSub h (pyLower e))))).dedup

/-- The `crypto_addresses` result of `extract_crypto_addresses`. -/
structure CryptoAddrs where
  bitcoin : List String
  ethereum : List String
deriving DecidableEq

/-- `IntelligenceExtractor.extract_crypto_addresses`. -/
def extract_crypto_addresses (text : String) : CryptoAddrs :=
  { bitcoin := (findAll btcToks text).dedup,
    ethereum := (findAll ethToks text).dedup }

/-- The `ExtractedIntelligence` result of `extract_all`. -/
structure Intelligence where
  bank_accounts : List BankAccount
  upi_ids : List String
  phone_numbers : List String
  urls : List String
  emails : List String
  crypto_addresses : CryptoAddrs
deriving DecidableEq

/-- Contents of the adversary-authored messages, in order. -/
def scammerContents (conversation : List Message) : List String :=
  (conversation.filter (fun m => m.role == "scammer")).map (fun m => m.content)

/-- The `full_text` that `extract_all` mines: all scammer messages joined
with single spaces. -/
def scammerText (conversation : List Message) : String :=
  String.intercalate " " (scammerContents conversation)

/-- `IntelligenceExtractor.extract_all`. -/
def extract_all (lib : String → Option (List String))
    (conversation : List Message) : Intelligence :=
  let full_text := scammerText conversation
  { bank_accounts := extract_bank_accounts full_text conversation,
    upi_ids := extract_upi_ids full_text,
    phone_numbers := extract_phone_numbers lib full_text,
    urls := extract_urls full_text,
    emails := extract_emails full_text,
    crypto_addresses := extract_crypto_addresses full_text }

/-! ## Claims about the DetectionEngine -/

/-- C1: for every catalog and input text, `detect` returns a confidence in
`[0, 100]`, `is_scam` holds exactly when the confidence is at least 50, and
`scam_type` is present exactly when `is_scam` holds. -/
theorem detect_result_invariants (cat : Catalog) (msg : String) :
    0 ≤ (detect cat msg).confidence ∧ (detect cat msg).confidence ≤ 100 ∧
      ((detect cat msg).is_scam = true ↔ 50 ≤ (detect cat msg).confidence) ∧
      ((detect cat msg).scam_type.isSome = true ↔ (detect cat msg).is_scam = true) := by
  unfold detect
  cases hfm : firstMax (scoredTypes cat (pyLower msg)) with
  | none => simp [hfm]
  | some t =>
    simp only [hfm]
    refine ⟨le_max_left _ _, max_le (by norm_num) (min_le_left _ _), by simp, ?_⟩
    by_cases h50 : 50 ≤ max 0 (min 100 (baseConfidence cat msg + heuristicBoost msg))
    · simp [h50]
    · simp [h50]

/-- A phrase none of whose characters is whitespace cannot occur inside a
whitespace-only text. -/
theorem containsSub_eq_false_of_ws {needle hay : String}
    (hn : needle.toList.any (fun c => !c.isWhitespace) = true)
    (hh : hay.toList.all (fun c => c.isWhitespace) = true) :
    containsSub needle hay = false := by
  by_contra h
  rw [Bool.not_eq_false] at h
  obtain ⟨c, hc, hcw⟩ := List.any_eq_true.mp hn
  have hmem := litInfix_subset h c hc
  have hw := List.all_eq_true.mp hh c hmem
  rw [hw] at hcw
  exact absurd hcw (by decide)

/-- Lower casing preserves whitespace-only texts. -/
theorem pyLower_all_ws {msg : String}
    (h : msg.toList.all (fun c => c.isWhitespace) = true) :
    (pyLower msg).toList.all (fun c => c.isWhitespace) = true := by
  have : (pyLower msg).toList = msg.toList.map Char.toLower := rfl
  rw [this, List.all_map]
  refine List.all_eq_true.mpr (fun c hc => ?_)
  have hw := List.all_eq_true.mp h c hc
  simp only [Function.comp_apply]
  rw [toLower_of_isWhitespace hw]
  exact hw

/-- Lower casing preserves having a non-whitespace character. -/
theorem pyLower_any_nonWs {s : String}
    (h : s.toList.any (fun c => !c.isWhitespace) = true) :
    (pyLower s).toList.any (fun c => !c.isWhitespace) = true := by
  obtain ⟨c, hc, hcw⟩ := List.any_eq_true.mp h
  have : (pyLower s).toList = s.toList.map Char.toLower := rfl
  rw [this]
  refine List.any_eq_true.mpr ⟨c.toLower, List.mem_map_of_mem _ hc, ?_⟩
  rw [Bool.not_eq_true'] at hcw ⊢
  by_contra hl
  rw [Bool.not_eq_false] at hl
  have hcc := isWhitespace_of_toLower hl
  rw [hcw] at hcc
  exact absurd hcc (by decide)

/-- Every phrase of a scam category is a catalog phrase. -/
theorem mem_catalogPhrases {cat : Catalog} {nt : String × ScamTypePatterns}
    (hnt : nt ∈ cat.scam_types) {k : String}
    (hk : k ∈ nt.2.keywords ++ nt.2.urgency_indicators ++ nt.2.authority_claims) :
    k ∈ catalogPhrases cat := by
  unfold catalogPhrases
  refine List.mem_append_left _ (List.mem_append_left _ ?_)
  rw [List.mem_flatten]
  exact ⟨_, List.mem_map_of_mem _ hnt, hk⟩

/-- On a whitespace-only message, no category scores, provided every catalog
phrase has a non-whitespace character. -/
theorem scoredTypes_eq_nil_of_ws (cat : Catalog) (msg : String)
    (hcat : (catalogPhrases cat).all
      (fun s => s.toList.any (fun c => !c.isWhitespace)) = true)
    (hmsg : msg.toList.all (fun c => c.isWhitespace) = true) :
    scoredTypes cat (pyLower msg) = [] := by
  have hml := pyLower_all_ws hmsg
  rw [scoredTypes, List.filterMap_eq_nil_iff]
  intro nt hnt
  have hzero : ∀ k ∈ nt.2.keywords ++ nt.2.urgency_indicators ++ nt.2.authority_claims,
      containsSub (pyLower k) (pyLower msg) = false := by
    intro k hk
    have hph := List.all_eq_true.mp hcat k (mem_catalogPhrases hnt hk)
    exact containsSub_eq_false_of_ws (pyLower_any_nonWs hph) hml
  have hsc : ¬ ((0 : PyFloat) < typeScore (pyLower msg) nt.2) := by
    unfold typeScore
    have h1 : nt.2.keywords.countP (fun k => containsSub (pyLower k) (pyLower msg)) = 0 :=
      List.countP_eq_zero.mpr (fun k hk => by
        rw [hzero k (List.mem_append_left _ (List.mem_append_left _ hk))]; decide)
    have h2 : nt.2.urgency_indicators.countP
        (fun k => containsSub (pyLower k) (pyLower msg)) = 0 :=
      List.countP_eq_zero.mpr (fun k hk => by
        rw [hzero k (List.mem_append_left _ (List.mem_append_right _ hk))]; decide)
    have h3 : nt.2.authority_claims.countP
        (fun k => containsSub (pyLower k) (pyLower msg)) = 0 :=
      List.countP_eq_zero.mpr (fun k hk => by
        rw [hzero k (List.mem_append_right _ hk)]; decide)
    rw [h1, h2, h3]
    decide
  dsimp only
  rw [if_neg hsc]

/-- C9 (amended): provided every catalog phrase contains at least one
non-whitespace character, `detect` on the empty string or any
whitespace-only string returns `is_scam = false` and `confidence = 0`. -/
theorem detect_ws_amended (cat : Catalog) (msg : String)
    (hcat : (catalogPhrases cat).all
      (fun s => s.toList.any (fun c => !c.isWhitespace)) = true)
    (hmsg : msg.toList.all (fun c => c.isWhitespace) = true) :
    (detect cat msg).is_scam = false ∧ (detect cat msg).confidence = 0 := by
  have hnil := scoredTypes_eq_nil_of_ws cat msg hcat hmsg
  simp only [detect]
  rw [hnil]
  simp [firstMax]

/-- Witness: a concrete catalog and whitespace message for `detect_ws_amended`. -/
def cwCat : Catalog :=
  { scam_types := [("banking_fraud",
      { keywords := ["blocked"], urgency_indicators := ["immediately"],
        authority_claims := [], confidence_weight := 1 })],
    red_flags := ["otp"], legitimate_indicators := ["meeting"] }

theorem detect_ws_amended_witness :
    ((catalogPhrases cwCat).all
        (fun s => s.toList.any (fun c => !c.isWhitespace)) = true) ∧
      ((" \t ").toList.all (fun c => c.isWhitespace) = true) ∧
      (detect cwCat " \t ").is_scam = false ∧ (detect cwCat " \t ").confidence = 0 :=
  ⟨by decide, by decide, detect_ws_amended cwCat " \t " (by decide) (by decide)⟩

/-- The catalog of the C9 counterexample: its single keyword is the non-empty
string consisting of one space. -/
def c9cat : Catalog :=
  { scam_types := [("t",
      { keywords := [" "], urgency_indicators := [], authority_claims := [],
        confidence_weight := 1 })],
    red_flags := [], legitimate_indicators := [] }

/-- C9 (counterexample): with a catalog whose phrases are all non-empty, a
whitespace-only input can still produce a non-zero confidence (here 15), so
the claim as stated is false. -/
theorem detect_ws_counterexample :
    ((catalogPhrases c9cat).all (fun s => s ≠ "") = true) ∧
      ((" ").toList.all (fun c => c.isWhitespace) = true) ∧
      (detect c9cat " ").confidence = 15 ∧
      ¬ ((detect c9cat " ").is_scam = false ∧ (detect c9cat " ").confidence = 0) := by
  refine ⟨by decide, by decide, by decide, ?_⟩
  intro h
  have := h.2
  rw [show (detect c9cat " ").confidence = 15 from by decide] at this
  exact absurd this (by decide)

/-- The weighted scores of the positively scoring categories, in catalog
order. -/
def weightedScores (cat : Catalog) (msg : String) : List PyFloat :=
  (scoredTypes cat (pyLower msg)).map (fun t => t.2.1)

/-- The winning category's weighted score as the specification describes it:
the maximum of the weighted scores (0 when no category scored). -/
def maxWeightedScore (cat : Catalog) (msg : String) : PyFloat :=
  match weightedScores cat msg with
  | [] => 0
  | w :: ws => ws.foldl PyFloat.fmax w

/-- The element `firstMax` keeps carries the maximum weighted score. -/
theorem firstMax_weight (x : String × PyFloat × List String)
    (xs : List (String × PyFloat × List String)) :
    (xs.foldl (fun b y => if b.2.1 < y.2.1 then y else b) x).2.1
      = (xs.map (fun t => t.2.1)).foldl PyFloat.fmax x.2.1 := by
  induction xs generalizing x with
  | nil => rfl
  | cons y ys ih =>
    simp only [List.foldl_cons, List.map_cons]
    rw [ih]
    by_cases hf : x.2.1 < y.2.1
    · rw [if_pos hf, PyFloat.fmax, if_pos hf]
    · rw [if_neg hf, PyFloat.fmax, if_neg hf]

/-- C5 (amended): whenever at least one category scores above zero, the base
confidence (before heuristic boosts and the final clamp) equals
`min(100, trunc(weighted_score*15 + red_flag_count*10 - legitimate_count*20))`,
where `trunc` is truncation toward zero — not the unclamped `round(...)` the
claim states. -/
theorem baseConfidence_amended (cat : Catalog) (msg : String)
    (h : ∃ nt ∈ cat.scam_types, (0 : PyFloat) < typeScore (pyLower msg) nt.2) :
    baseConfidence cat msg = min 100 (ratTrunc (maxWeightedScore cat msg * 15
      + ((redFlagsFound cat (pyLower msg)).length : PyFloat) * 10
      - (legitCount cat (pyLower msg) : PyFloat) * 20)) := by
  obtain ⟨x, xs, hx⟩ : ∃ x xs, scoredTypes cat (pyLower msg) = x :: xs := by
    obtain ⟨nt, hnt, hpos⟩ := h
    cases hl : scoredTypes cat (pyLower msg) with
    | cons a l => exact ⟨a, l, rfl⟩
    | nil =>
      exfalso
      have := (List.filterMap_eq_nil_iff.mp hl) nt hnt
      dsimp only at this
      rw [if_pos hpos] at this
      exact Option.noConfusion this
  simp only [baseConfidence, maxWeightedScore, weightedScores, hx, firstMax]
  rw [firstMax_weight]
  rfl

/-- The catalog of the C5 counterexample and witness: a single category whose
seven keywords all match the message, with confidence weight 1. -/
def c5cat : Catalog :=
  { scam_types := [("t",
      { keywords := ["k1", "k2", "k3", "k4", "k5", "k6", "k7"],
        urgency_indicators := [], authority_claims := [],
        confidence_weight := ⟨1, 1⟩ })],
    red_flags := [], legitimate_indicators := [] }

/-- The message of the C5 counterexample and witness. -/
def c5msg : String := "k1 k2 k3 k4 k5 k6 k7"

/-- C5 (counterexample): on `c5cat` and `c5msg` the winning weighted score is
7, so `round(7*15 + 0 - 0) = 105`, but the code computes
`min(100, int(105)) = 100`; the claim's unclamped `round` formula is wrong. -/
theorem baseConfidence_counterexample :
    (∃ nt ∈ c5cat.scam_types, (0 : PyFloat) < typeScore (pyLower c5msg) nt.2) ∧
      baseConfidence c5cat c5msg ≠ ratRound (maxWeightedScore c5cat c5msg * 15
        + ((redFlagsFound c5cat (pyLower c5msg)).length : PyFloat) * 10
        - (legitCount c5cat (pyLower c5msg) : PyFloat) * 20) := by
  constructor
  · decide
  · decide

/-- Witness for `baseConfidence_amended` at the concrete catalog `c5cat` and
message `c5msg` (base confidence 100). -/
theorem baseConfidence_amended_witness :
    (∃ nt ∈ c5cat.scam_types, (0 : PyFloat) < typeScore (pyLower c5msg) nt.2) ∧
      baseConfidence c5cat c5msg = min 100 (ratTrunc (maxWeightedScore c5cat c5msg * 15
        + ((redFlagsFound c5cat (pyLower c5msg)).length : PyFloat) * 10
        - (legitCount c5cat (pyLower c5msg) : PyFloat) * 20)) :=
  ⟨by decide, baseConfidence_amended c5cat c5msg (by decide)⟩

/-! ## Claims about the ExtractionEngine -/

/-- The i-th result entry of `extract_bank_accounts` as the claim describes
it: for `i` below the number of digit runs, the i-th digit run paired with
the i-th IFSC match (upper-cased) when one exists, with the bank name looked
up from the 4-letter prefix; past the digit runs, the remaining IFSC matches
as standalone entries with a null account number. -/
def bankEntriesSpec (text : String) (i : Nat) : Option BankAccount :=
  let A := findAll bankToks text
  let F := findAll ifscToks text
  if h : i < A.length then
    some { account_number := some (A.get ⟨i, h⟩),
           ifsc_code := (F.get? i).map pyUpper,
           bank_name := (F.get? i).map (fun f => bankNameOf (pyUpper f)),
           extracted_at := "message_" ++ toString (i + 1) }
  else
    (F.get? i).map (fun f =>
      { account_number := none, ifsc_code := some (pyUpper f),
        bank_name := some (bankNameOf (pyUpper f)), extracted_at := "standalone" })

/-- Index-wise description of the pairing loop plus the standalone loop. -/
theorem pairAccounts_get? (A F : List String) (n i : Nat) :
    (pairAccounts A F n ++ (F.drop A.length).map standaloneEntry).get? i
      = if h : i < A.length then some (bankEntry (A.get ⟨i, h⟩) (F.get? i) (n + i))
        else (F.get? i).map standaloneEntry := by
  induction A generalizing F n i with
  | nil =>
    simp only [pairAccounts, List.nil_append, List.length_nil, List.drop_zero]
    rw [dif_neg (by omega)]
    simp [List.get?_eq_getElem?, List.getElem?_map]
  | cons a as ih =>
    cases F with
    | nil =>
      cases i with
      | zero => simp [pairAccounts]
      | succ j =>
        simp only [pairAccounts, List.drop_nil, List.map_nil, List.append_nil,
          List.cons_append, List.get?_cons_succ, List.length_cons] at *
        have := ih [] (n + 1) j
        simp only [List.drop_nil, List.map_nil, List.append_nil] at this
        rw [this]
        by_cases hj : j < as.length
        · rw [dif_pos hj, dif_pos (by omega)]
          simp [Nat.add_assoc, Nat.add_comm 1 j]
        · rw [dif_neg hj, dif_neg (by omega)]
          simp
    | cons f fs =>
      cases i with
      | zero => simp [pairAccounts]
      | succ j =>
        simp only [pairAccounts, List.cons_append, List.get?_cons_succ,
          List.length_cons, List.drop_succ_cons]
        rw [ih fs (n + 1) j]
        by_cases hj : j < as.length
        · rw [dif_pos hj, dif_pos (by omega)]
          simp [Nat.add_assoc, Nat.add_comm 1 j]
        · rw [dif_neg hj, dif_neg (by omega)]

/-- C4: for every text (and ignored conversation argument), the entries of
`extract_bank_accounts` are exactly as `bankEntriesSpec` describes: one entry
per digit run in order, ordinally paired with the upper-cased IFSC matches,
bank names resolved from the 4-letter prefix with "Unknown Bank" as default,
and one standalone null-account entry per leftover IFSC match. -/
theorem extract_bank_accounts_spec (text : String) (conversation : List Message)
    (i : Nat) :
    (extract_bank_accounts text conversation).get? i = bankEntriesSpec text i := by
  unfold extract_bank_accounts bankEntriesSpec
  rw [pairAccounts_get?]
  by_cases h : i < (findAll bankToks text).length
  · rw [dif_pos h, dif_pos h]
    cases hf : (findAll ifscToks text).get? i with
    | none => simp [bankEntry, hf, Nat.add_comm 1 i]
    | some f => simp [bankEntry, hf, Nat.add_comm 1 i]
  · rw [dif_neg h, dif_neg h]
    rfl

/-- C6 (amended): the email filter only excludes the three handles `paytm`,
`phonepe` and `ybl`; every returned email is free of those three substrings
(the full 25-handle UPI vocabulary is not applied, so `emails` and `upi_ids`
can intersect). -/
theorem extract_emails_amended (text e : String) (he : e ∈ extract_emails text) :
    containsSub "paytm" (pyLower e) = false ∧
      containsSub "phonepe" (pyLower e) = false ∧
      containsSub "ybl" (pyLower e) = false := by
  unfold extract_emails at he
  rw [List.mem_dedup] at he
  have hp := (List.mem_filter.mp he).2
  rw [Bool.not_eq_true'] at hp
  have hall := List.any_eq_false.mp hp
  exact ⟨by simpa using hall "paytm" (by simp),
    by simpa using hall "phonepe" (by simp),
    by simpa using hall "ybl" (by simp)⟩

/-- Witness for `extract_emails_amended` on a concrete text. -/
theorem extract_emails_amended_witness :
    ("a@b.com" ∈ extract_emails "write a@b.com now") ∧
      (containsSub "paytm" (pyLower "a@b.com") = false ∧
        containsSub "phonepe" (pyLower "a@b.com") = false ∧
        containsSub "ybl" (pyLower "a@b.com") = false) :=
  ⟨by decide, extract_emails_amended "write a@b.com now" "a@b.com" (by decide)⟩

/-- A transcript used by the C6 counterexample. -/
def c6conv : List Message := [⟨"scammer", "contact john@sbi.com", 0⟩]

/-- A phone library model that always raises, forcing the regex fallback. -/
def noPhoneLib : String → Option (List String) := fun _ => none

/-- C6 (counterexample): `john@sbi.com` contains the payment handle `sbi`
from the UPI vocabulary, yet it is returned both as an email and as a UPI id,
so the claimed exclusion/disjointness fails. -/
theorem extract_emails_counterexample :
    ("john@sbi.com" ∈ (extract_all noPhoneLib c6conv).emails) ∧
      ("john@sbi.com" ∈ (extract_all noPhoneLib c6conv).upi_ids) ∧
      ("sbi" ∈ upi_handles) ∧
      containsSub "sbi" (pyLower "john@sbi.com") = true := by
  refine ⟨by decide, by decide, by decide, by decide⟩

/-- C8: `extract_all` depends only on the sequence of adversary-authored
message contents; transcripts that agree on those (whatever agent messages
they contain) produce identical intelligence. -/
theorem extract_all_scammer_only (lib : String → Option (List String))
    (c1 c2 : List Message) (h : scammerContents c1 = scammerContents c2) :
    extract_all lib c1 = extract_all lib c2 := by
  unfold extract_all
  rw [show scammerText c1 = scammerText c2 from by unfold scammerText; rw [h]]
  rfl

/-- Transcripts used by the C8 witness: equal scammer contents, different
agent messages and timestamps. -/
def c8conv1 : List Message :=
  [⟨"scammer", "pay to 1234567890123", 0⟩, ⟨"agent", "ok what account", 1⟩]

/-- The second C8 transcript, with no agent message at all. -/
def c8conv2 : List Message := [⟨"scammer", "pay to 1234567890123", 7⟩]

/-- Witness for `extract_all_scammer_only` on concrete transcripts. -/
theorem extract_all_scammer_only_witness :
    scammerContents c8conv1 = scammerContents c8conv2 ∧
      extract_all noPhoneLib c8conv1 = extract_all noPhoneLib c8conv2 :=
  ⟨by decide, extract_all_scammer_only noPhoneLib c8conv1 c8conv2 (by decide)⟩

/-! ## PersonaCatalog and PersonaManager (src/agent/persona_manager.py)

Python dictionaries are reference values: `self.current_persona =
self.personas[name]` aliases the catalog entry, and the following
`self.current_persona['id'] = name` writes through that alias into the shared
catalog.  The manager state below models this by keeping `current` as the
*key* of the selected entry and routing every write through the catalog. -/

/-- A persona dictionary as stored in the catalog (`personas.json`); the
`id` key is absent (`none`) until selection writes it. -/
structure CatPersona where
  id : Option String
  vulnerability_level : Option String
deriving DecidableEq

/-- The mutable state of a `PersonaManager`. -/
structure PMState where
  personas : List (String × CatPersona)
  current : Option String
deriving DecidableEq

/-- The catalog keys, for random selection. -/
def pmKeys (st : PMState) : List String := st.personas.map (fun kv => kv.1)

/-- `PersonaManager.select_persona`: by name when the (non-empty) name is in
the catalog, otherwise a random key (`pick` models the random index).  The
selected entry is aliased, and `current_persona['id'] = persona_name` writes
the id through the alias into the shared catalog entry. -/
def select_persona (st : PMState) (name? : Option String) (pick : Nat) :
    CatPersona × PMState :=
  let key := match name? with
    | some n =>
      if n ≠ "" ∧ (st.personas.lookup n).isSome then n
      else (pmKeys st).getD (pick % (pmKeys st).length) ""
    | none => (pmKeys st).getD (pick % (pmKeys st).length) ""
  let p := (st.personas.lookup key).getD ⟨none, none⟩
  let p2 := { p with id := some key }
  (p2, { personas := st.personas.map (fun kv => if kv.1 = key then (key, p2) else kv),
         current := some key })

/-- Writing a field on the *selected* persona: because the selection aliases
the catalog entry, the write lands on the shared catalog entry for the
current key. -/
def writeCurrentId (st : PMState) (v : String) : PMState :=
  match st.current with
  | none => st
  | some k =>
    { st with personas := st.personas.map (fun kv =>
        if kv.1 = k then (k, { kv.2 with id := some v }) else kv) }

/-- The catalog used to exercise C2. -/
def c2cat : PMState :=
  { personas := [("elderly_user", ⟨none, some "high"⟩),
                 ("eager_customer", ⟨none, some "medium-high"⟩)],
    current := none }

/-- C2 (code bug): selecting `elderly_user` already writes the identifier
onto the shared catalog entry, and a subsequent write of the selected
persona's identifier also lands on the catalog entry — the selected value is
not distinct from the catalog's stored entry, contradicting the claim. -/
theorem select_persona_mutates_catalog :
    ((select_persona c2cat (some "elderly_user") 0).2.personas.lookup "elderly_user"
        = some ⟨some "elderly_user", some "high"⟩) ∧
      ((writeCurrentId (select_persona c2cat (some "elderly_user") 0).2
          "intruder").personas.lookup "elderly_user"
        = some ⟨some "intruder", some "high"⟩) ∧
      (c2cat.personas.lookup "elderly_user" = some ⟨none, some "high"⟩) := by
  refine ⟨by decide, by decide, by decide⟩

/-! ## ConversationAgent (src/agent/conversation_agent.py) -/

/-- The persona the running agent holds (selection always sets the id). -/
structure Persona where
  pid : String
  vulnerability_level : Option String
deriving DecidableEq

/-- `persona.get('vulnerability_level', 'medium')`. -/
def vulnTier (p : Persona) : String := p.vulnerability_level.getD "medium"

/-- `PersonaManager.should_ask_for_details`: the random draw
`random.random() < threshold` of whichever branch runs is modelled by the
boolean `draw`; branches that are not reached never consult it. -/
def should_ask_for_details (current : Option Persona) (turn : Nat) (draw : Bool) :
    Bool :=
  match current with
  | none => false
  | some p =>
    if vulnTier p = "high" ∧ 3 ≤ turn then draw
    else if vulnTier p = "medium-high" ∧ 4 ≤ turn then draw
    else if vulnTier p = "medium" ∧ 5 ≤ turn then draw
    else false

/-- `random.choice(l)`, with the random index supplied as `i`. -/
def pickFrom (l : List String) (i : Nat) : String := l.getD (i % l.length) ""

/-- The candidate detail requests of `generate_detail_request`. -/
def detailRequests : List String :=
  ["Where should I send the money?", "What account number do I need?",
   "Can you give me the details?", "What\x27s your UPI ID?",
   "Should I click on that link you sent?", "What information do you need from me?"]

/-- `PersonaManager.generate_detail_request`. -/
def generate_detail_request (i : Nat) : String := pickFrom detailRequests i

/-- Replies to urgency vocabulary. -/
def urgentReplies : List String :=
  ["Oh my, this sounds urgent! What should I do?",
   "I\x27m worried now. Please tell me exactly what to do.",
   "Okay, I\x27ll do it right away. Just tell me how."]

/-- Replies to threat vocabulary. -/
def threatReplies : List String :=
  ["I don\x27t want any trouble! What do I need to do to fix this?",
   "Please, I\x27ll cooperate. Just tell me what you need.",
   "I\x27m scared. How can I resolve this issue?"]

/-- Replies to prize vocabulary. -/
def prizeReplies : List String :=
  ["This is amazing! How do I claim it?", "I can\x27t believe it! What do I need to do?",
   "Wonderful! Please guide me through the process."]

/-- Replies to payment vocabulary. -/
def payReplies : List String :=
  ["Where exactly should I send it?", "What are the account details?",
   "Can you confirm the payment information?", "Should I use UPI or bank transfer?"]

/-- Replies to links. -/
def linkReplies : List String :=
  ["Should I click on that link?", "Is it safe to open that link?",
   "I see the link. What will happen when I click it?"]

/-- Default compliant replies. -/
def defaultReplies : List String :=
  ["Okay, I understand. What\x27s next?", "Yes, I can do that. Please tell me more.",
   "I\x27m following along. What should I do now?",
   "Alright, I\x27m ready. What information do you need?",
   "I see. Can you explain the next step?"]

/-- The random draws one call to `generate_response` may consult. -/
structure Draws where
  askDraw : Bool
  detailIdx : Nat
  branchIdx : Nat
  styleCoin : Bool
  typoCoin : Bool
  typoWordIdx : Nat
  typoPos : Nat
  dotsCoin : Bool
deriving DecidableEq

/-- One input to `generate_response`: the adversary message, the random draws
and the two `time.time()` readings taken during the call. -/
structure RInput where
  msg : String
  r : Draws
  t1 : Nat
  t2 : Nat
deriving DecidableEq

/-- The mutable state of a `ConversationAgent`. -/
structure AgentState where
  persona : Persona
  max_turns : Nat
  history : List Message
  turn_number : Nat
  intelligence_extracted : Bool
  enable_typos : Bool
deriving DecidableEq

/-- `ConversationAgent._determine_response`; the second component records
which branch produced the reply: `true` exactly when the detail-solicitation
branch ran (it marks `intelligence_extracted`). -/
def determine_response (st : AgentState) (msg : String) (r : Draws) :
    String × Bool × AgentState :=
  let ml := pyLower msg
  if should_ask_for_details (some st.persona) st.turn_number r.askDraw = true
      ∧ st.intelligence_extracted = false then
    (generate_detail_request r.detailIdx, true, { st with intelligence_extracted := true })
  else if ["urgent", "immediately", "now", "hurry"].any
      (fun w => containsSub w ml) then
    (pickFrom urgentReplies r.branchIdx, false, st)
  else if ["police", "arrest", "legal", "court", "blocked"].any
      (fun w => containsSub w ml) then
    (pickFrom threatReplies r.branchIdx, false, st)
  else if ["won", "prize", "lottery", "money", "reward"].any
      (fun w => containsSub w ml) then
    (pickFrom prizeReplies r.branchIdx, false, st)
  else if ["pay", "send", "transfer", "account"].any
      (fun w => containsSub w ml) then
    (pickFrom payReplies r.branchIdx, false, st)
  else if containsSub "http" ml = true ∨ containsSub "link" ml = true then
    (pickFrom linkReplies r.branchIdx, false, st)
  else
    (pickFrom defaultReplies r.branchIdx, false, st)

/-- Python `str.split()` with no argument: split on whitespace runs. -/
def splitWords (s : String) : List String :=
  (s.split (fun c => pyWs c = true)).filter (fun w => w ≠ "")

/-- `response.split('.')[0] + '.'` for the busy professional. -/
def headSeg (s : String) : String := ((s.splitOn ".").headD "") ++ "."

/-- `PersonaManager.generate_response_style`. -/
def generate_response_style (p : Persona) (base : String) (turn : Nat) (r : Draws) :
    String :=
  if p.pid = "elderly_user" then
    let resp := if turn ≤ 2 then "I\x27m not sure I understand... " ++ base else base
    if r.styleCoin then resp ++ " Is this safe?" else resp
  else if p.pid = "eager_customer" then
    let resp := if containsSub "prize" (pyLower base) = true
        ∨ containsSub "won" (pyLower base) = true then "Really?! " ++ base else base
    if r.styleCoin then resp ++ " How quickly can we do this?" else resp
  else if p.pid = "worried_parent" then
    let resp := if turn ≤ 3 then "Oh no, " ++ base else base
    if r.styleCoin then resp ++ " I need to make sure my family is safe." else resp
  else if p.pid = "busy_professional" then
    let resp := if turn = 1 then "I\x27m quite busy, but " ++ base else base
    if r.styleCoin then headSeg resp else resp
  else base

/-- Swap the characters at positions `pos` and `pos + 1` of a word. -/
def typoWord (w : String) (posR : Nat) : String :=
  let cs := w.toList
  let pos := posR % (cs.length - 1)
  String.mk (cs.take pos ++ [cs.getD (pos + 1) 'a', cs.getD pos 'a'] ++ cs.drop (pos + 2))

/-- `ConversationAgent._add_human_touches`. -/
def add_human_touches (resp : String) (enable : Bool) (r : Draws) : String :=
  if enable = false then resp
  else
    let resp1 :=
      if r.typoCoin then
        let ws := splitWords resp
        if 3 < ws.length then
          let idx := 1 + r.typoWordIdx % (ws.length - 1)
          let w := ws.getD idx ""
          if 4 < w.length then
            String.intercalate " " (ws.set idx (typoWord w r.typoPos))
          else resp
        else resp
      else resp
    if r.dotsCoin then resp1.replace "." "..." else resp1

/-- The agent state right after `generate_response` records the adversary
message and increments the turn counter (its first two statements). -/
def recordedState (st : AgentState) (inp : RInput) : AgentState :=
  { st with
    history := st.history ++ [⟨"scammer", inp.msg, inp.t1⟩],
    turn_number := st.turn_number + 1 }

/-- `ConversationAgent.generate_response`: records the adversary message and
increments the turn counter (`recordedState`), returns `none` past
`max_turns`, and otherwise produces, styles and records a reply.  The middle
component is the detail-branch tag from `determine_response`. -/
def generate_response (st : AgentState) (inp : RInput) :
    Option String × Bool × AgentState :=
  let st1 := recordedState st inp
  if st.max_turns < st1.turn_number then (none, false, st1)
  else
    let dr := determine_response st1 inp.msg inp.r
    if dr.1 = "" then (some dr.1, dr.2.1, dr.2.2)
    else
      let styled := generate_response_style dr.2.2.persona dr.1 st1.turn_number inp.r
      let final := add_human_touches styled st.enable_typos inp.r
      (some final, dr.2.1,
        { dr.2.2 with history := dr.2.2.history ++ [⟨"agent", final, inp.t2⟩] })

/-- A whole run of `generate_response` calls, collecting each call's reply
and detail-branch tag. -/
def runTagged : AgentState → List RInput → List (Option String × Bool)
  | _, [] => []
  | st, i :: is =>
    let g := generate_response st i
    (g.1, g.2.1) :: runTagged g.2.2 is

/-- Number of detail-solicitation replies in a run. -/
def detailCount (l : List (Option String × Bool)) : Nat :=
  l.countP (fun x => x.2)

/-! ## Claims about the ConversationEngine -/

/-- `_determine_response` takes the detail branch exactly when the
probability check succeeds and no detail request was issued yet; only that
branch touches the state, setting `intelligence_extracted`. -/
theorem determine_tag_state (st : AgentState) (msg : String) (r : Draws) :
    ((determine_response st msg r).2.1 = true ↔
      (should_ask_for_details (some st.persona) st.turn_number r.askDraw = true
        ∧ st.intelligence_extracted = false)) ∧
    (determine_response st msg r).2.2
      = (if should_ask_for_details (some st.persona) st.turn_number r.askDraw = true
            ∧ st.intelligence_extracted = false
         then { st with intelligence_extracted := true } else st) := by
  unfold determine_response
  by_cases hc : should_ask_for_details (some st.persona) st.turn_number r.askDraw = true
      ∧ st.intelligence_extracted = false
  · simp only [if_pos hc]
    simp [hc]
  · simp only [if_neg hc]
    constructor
    · constructor
      · intro h
        exfalso
        repeat' split at h
        all_goals simp at h
      · intro h; exact absurd h hc
    · repeat' split
      all_goals rfl

theorem recordedState_turn (st : AgentState) (inp : RInput) :
    (recordedState st inp).turn_number = st.turn_number + 1 := rfl

theorem recordedState_history (st : AgentState) (inp : RInput) :
    (recordedState st inp).history
      = st.history ++ [⟨"scammer", inp.msg, inp.t1⟩] := rfl

theorem recordedState_flag (st : AgentState) (inp : RInput) :
    (recordedState st inp).intelligence_extracted = st.intelligence_extracted := rfl

/-- The reply `generate_response` returns past the turn limit. -/
theorem generate_response_terminated_step (st : AgentState) (inp : RInput)
    (h : st.max_turns ≤ st.turn_number) :
    (generate_response st inp).1 = none ∧
      (generate_response st inp).2.2.turn_number = st.turn_number + 1 ∧
      (generate_response st inp).2.2.max_turns = st.max_turns := by
  simp only [generate_response, recordedState_turn]
  rw [if_pos (show st.max_turns < st.turn_number + 1 by omega)]
  exact ⟨rfl, rfl, rfl⟩

/-- C3: once a call to `generate_response` pushes the turn counter past
`max_turns`, that call and every later call on the same conversation return
`none` — a terminated conversation is never resurrected. -/
theorem generate_response_stays_terminated (st : AgentState) (inputs : List RInput)
    (h : st.max_turns ≤ st.turn_number) :
    (runTagged st inputs).all (fun x => x.1.isNone) = true := by
  induction inputs generalizing st with
  | nil => rfl
  | cons i is ih =>
    obtain ⟨h1, h2, h3⟩ := generate_response_terminated_step st i h
    rw [runTagged, List.all_cons, Bool.and_eq_true]
    constructor
    · rw [h1]; rfl
    · exact ih (generate_response st i).2.2 (by rw [h2, h3]; omega)


theorem determine_response_history (st : AgentState) (msg : String) (r : Draws) :
    (determine_response st msg r).2.2.history = st.history := by
  rw [(determine_tag_state st msg r).2]
  split <;> rfl

theorem determine_response_turn (st : AgentState) (msg : String) (r : Draws) :
    (determine_response st msg r).2.2.turn_number = st.turn_number := by
  rw [(determine_tag_state st msg r).2]
  split <;> rfl

/-- Reply tag and final flag of one `generate_response` call, as functions of
the state and the inner `determine_response` call. -/
theorem generate_response_shape (st : AgentState) (inp : RInput) :
    (generate_response st inp).2.1
      = (if st.max_turns < st.turn_number + 1 then false
         else (determine_response (recordedState st inp) inp.msg inp.r).2.1) ∧
    (generate_response st inp).2.2.intelligence_extracted
      = (if st.max_turns < st.turn_number + 1 then st.intelligence_extracted
         else (determine_response (recordedState st inp) inp.msg
            inp.r).2.2.intelligence_extracted) := by
  simp only [generate_response, recordedState_turn]
  by_cases hterm : st.max_turns < st.turn_number + 1
  · simp only [if_pos hterm]
    refine ⟨?_, ?_⟩ <;> first | rfl | trivial
  · simp only [if_neg hterm]
    constructor
    · split <;> rfl
    · split <;> rfl

/-- A detail-tagged call starts with the flag clear and sets it. -/
theorem generate_response_tag_true {st : AgentState} {inp : RInput}
    (h : (generate_response st inp).2.1 = true) :
    st.intelligence_extracted = false ∧
      (generate_response st inp).2.2.intelligence_extracted = true := by
  obtain ⟨hs1, hs2⟩ := generate_response_shape st inp
  rw [hs1] at h
  rw [hs2]
  by_cases hterm : st.max_turns < st.turn_number + 1
  · rw [if_pos hterm] at h
    exact absurd h (by simp)
  · rw [if_neg hterm] at h
    rw [if_neg hterm]
    have hd := (determine_tag_state (recordedState st inp) inp.msg inp.r).1.mp h
    refine ⟨hd.2, ?_⟩
    rw [(determine_tag_state (recordedState st inp) inp.msg inp.r).2, if_pos hd]

/-- An untagged call leaves the flag unchanged. -/
theorem generate_response_tag_false {st : AgentState} {inp : RInput}
    (h : (generate_response st inp).2.1 = false) :
    (generate_response st inp).2.2.intelligence_extracted
      = st.intelligence_extracted := by
  obtain ⟨hs1, hs2⟩ := generate_response_shape st inp
  rw [hs1] at h
  rw [hs2]
  by_cases hterm : st.max_turns < st.turn_number + 1
  · rw [if_pos hterm]
  · rw [if_neg hterm] at h
    rw [if_neg hterm]
    have hiff := (determine_tag_state (recordedState st inp) inp.msg inp.r).1
    have hcond : ¬ (should_ask_for_details (some (recordedState st inp).persona)
        (recordedState st inp).turn_number inp.r.askDraw = true
        ∧ (recordedState st inp).intelligence_extracted = false) := by
      intro hc
      rw [hiff.mpr hc] at h
      exact absurd h (by simp)
    rw [(determine_tag_state (recordedState st inp) inp.msg inp.r).2, if_neg hcond]
    exact recordedState_flag st inp

/-- C7: at most one detail-solicitation reply is ever emitted in a run (none
once the flag is set), and `should_ask_for_details` is `false` regardless of
the draw for a low-vulnerability persona at any turn, and below turn 3, 4 or
5 for the high, medium-high and medium tiers respectively. -/
theorem detail_request_discipline :
    (∀ (st : AgentState) (inputs : List RInput),
      detailCount (runTagged st inputs)
        ≤ (if st.intelligence_extracted then 0 else 1)) ∧
    (∀ (p : Persona) (turn : Nat) (draw : Bool), vulnTier p = "low" →
      should_ask_for_details (some p) turn draw = false) ∧
    (∀ (p : Persona) (turn : Nat) (draw : Bool),
      (vulnTier p = "high" → turn < 3 →
        should_ask_for_details (some p) turn draw = false) ∧
      (vulnTier p = "medium-high" → turn < 4 →
        should_ask_for_details (some p) turn draw = false) ∧
      (vulnTier p = "medium" → turn < 5 →
        should_ask_for_details (some p) turn draw = false)) := by
  refine ⟨?_, ?_, ?_⟩
  · intro st inputs
    induction inputs generalizing st with
    | nil => simp [runTagged, detailCount]
    | cons i is ih =>
      simp only [runTagged, detailCount, List.countP_cons]
      cases hg : (generate_response st i).2.1 with
      | false =>
        have hfl := generate_response_tag_false hg
        have hrest := ih (generate_response st i).2.2
        rw [hfl] at hrest
        simp only [detailCount] at hrest
        simpa [hg] using hrest
      | true =>
        obtain ⟨hf0, hf1⟩ := generate_response_tag_true hg
        have hrest := ih (generate_response st i).2.2
        rw [hf1] at hrest
        simp only [detailCount] at hrest
        simp at hrest
        rw [hf0]
        simp [hg, hrest]
  · intro p turn draw h
    simp only [should_ask_for_details]
    rw [h]
    rw [if_neg (fun hc => absurd hc.1 (by decide)),
      if_neg (fun hc => absurd hc.1 (by decide)),
      if_neg (fun hc => absurd hc.1 (by decide))]
  · intro p turn draw
    refine ⟨fun h ht => ?_, fun h ht => ?_, fun h ht => ?_⟩ <;>
      (simp only [should_ask_for_details]; rw [h])
    · rw [if_neg (fun hc => absurd hc.2 (by omega)),
        if_neg (fun hc => absurd hc.1 (by decide)),
        if_neg (fun hc => absurd hc.1 (by decide))]
    · rw [if_neg (fun hc => absurd hc.1 (by decide)),
        if_neg (fun hc => absurd hc.2 (by omega)),
        if_neg (fun hc => absurd hc.1 (by decide))]
    · rw [if_neg (fun hc => absurd hc.1 (by decide)),
        if_neg (fun hc => absurd hc.1 (by decide)),
        if_neg (fun hc => absurd hc.2 (by omega))]

/-- Taking one element past a list keeps exactly that appended element. -/
theorem take_len_append {α : Type} (l : List α) (a : α) (r : List α) :
    ((l ++ [a]) ++ r).take (l.length + 1) = l ++ [a] := by
  have h : l.length + 1 = (l ++ [a]).length := by simp
  rw [h, List.take_left]

/-- Degenerate form of `take_len_append` with nothing appended after. -/
theorem take_len_single {α : Type} (l : List α) (a : α) :
    (l ++ [a]).take (l.length + 1) = l ++ [a] := by
  have h : l.length + 1 = (l ++ [a]).length := by simp
  rw [h, List.take_length]

/-- C10: every call to `generate_response` — including one made past
`max_turns` that returns `none` — first appends the adversary message to the
history and increments `turn_number`, so both strictly grow on every call. -/
theorem generate_response_always_records (st : AgentState) (inp : RInput) :
    (generate_response st inp).2.2.turn_number = st.turn_number + 1 ∧
      (generate_response st inp).2.2.history.take (st.history.length + 1)
        = st.history ++ [⟨"scammer", inp.msg, inp.t1⟩] ∧
      st.history.length < (generate_response st inp).2.2.history.length := by
  simp only [generate_response, recordedState_turn]
  by_cases hterm : st.max_turns < st.turn_number + 1
  · simp only [if_pos hterm]
    refine ⟨rfl, ?_, ?_⟩
    · rw [recordedState_history]
      exact take_len_single _ _
    · rw [recordedState_history]
      simp
  · simp only [if_neg hterm]
    split
    · refine ⟨?_, ?_, ?_⟩
      · dsimp only
        rw [determine_response_turn, recordedState_turn]
      · dsimp only
        rw [determine_response_history, recordedState_history]
        exact take_len_single _ _
      · dsimp only
        rw [determine_response_history, recordedState_history]
        simp
    · refine ⟨?_, ?_, ?_⟩
      · dsimp only
        rw [determine_response_turn, recordedState_turn]
      · dsimp only
        rw [determine_response_history, recordedState_history]
        exact take_len_append _ _ _
      · dsimp only
        rw [determine_response_history, recordedState_history]
        simp

/-- A draws record that never fires any probabilistic branch. -/
def d0 : Draws := ⟨false, 0, 0, false, false, 0, 0, false⟩

/-- A terminated conversation state: turn 5 with a limit of 2 turns. -/
def c3st : AgentState := ⟨⟨"elderly_user", some "high"⟩, 2, [], 5, false, true⟩

/-- Two further adversary messages sent to the terminated conversation. -/
def c3inputs : List RInput := [⟨"hello", d0, 0, 0⟩, ⟨"pay now", d0, 1, 1⟩]

/-- Witness for `generate_response_stays_terminated` on a concrete run. -/
theorem generate_response_stays_terminated_witness :
    c3st.max_turns ≤ c3st.turn_number ∧
      (runTagged c3st c3inputs).all (fun x => x.1.isNone) = true :=
  ⟨by decide, generate_response_stays_terminated c3st c3inputs (by decide)⟩

/-- A fresh high-vulnerability conversation used by the C7 witness. -/
def c7st : AgentState := ⟨⟨"elderly_user", some "high"⟩, 20, [], 0, false, true⟩

/-- Draws whose detail-probability check always succeeds. -/
def dAsk : Draws := ⟨true, 0, 0, false, false, 0, 0, false⟩

/-- Inputs for the C7 witness run. -/
def c7inputs : List RInput :=
  [⟨"send money now", dAsk, 0, 1⟩, ⟨"why is it taking long", dAsk, 2, 3⟩]

/-- Witness for `detail_request_discipline` at concrete states, personas,
turns and draws. -/
theorem detail_request_discipline_witness :
    detailCount (runTagged c7st c7inputs) ≤ 1 ∧
      should_ask_for_details (some ⟨"x", some "low"⟩) 9 true = false ∧
      should_ask_for_details (some ⟨"elderly_user", some "high"⟩) 2 true = false :=
  ⟨by simpa [c7st] using detail_request_discipline.1 c7st c7inputs,
   detail_request_discipline.2.1 ⟨"x", some "low"⟩ 9 true rfl,
   (detail_request_discipline.2.2 ⟨"elderly_user", some "high"⟩ 2 true).1 rfl
     (by omega)⟩
